import Mathlib

/-!
Verification of the bundle resolution registry (src/src/bundles/bundle-registry.js).

The JavaScript object maps are embedded as insertion-ordered association lists,
mirroring for-in iteration order over string keys. The shared mutable arrays
that alias between the asset-id index and the URL index are embedded as an
arena of membership lists keyed by a set identifier: JS reference identity
between two map values becomes equality of set identifiers, and mutating the
shared array becomes updating the arena entry. Callbacks are identified by
numeric tokens; instead of invoking them, every operation returns the ordered
list of invocations it performs, each recording the callback token, the error
argument and the handle argument. A JS runtime fault (TypeError) is embedded
as an Option-valued operation returning none.
-/

namespace BundleReg

/-- Lookup in an insertion-ordered association list (JS object property read). -/
def alistLookup {α β : Type} [DecidableEq α] : List (α × β) → α → Option β
  | [], _ => none
  | (k, v) :: rest, a => if k = a then some v else alistLookup rest a

/-- Write to an insertion-ordered association list: replace in place when the
key exists, append otherwise (JS object property write). -/
def alistSet {α β : Type} [DecidableEq α] : List (α × β) → α → β → List (α × β)
  | [], a, b => [(a, b)]
  | (k, v) :: rest, a, b =>
    if k = a then (k, b) :: rest else (k, v) :: alistSet rest a b

/-- Delete a key from an association list (JS delete obj[k]). -/
def alistDelete {α β : Type} [DecidableEq α] (l : List (α × β)) (a : α) : List (α × β) :=
  l.filter (fun p => p.1 ≠ a)

/-- Events the registry can be subscribed to on the asset registry collaborator:
the global add and remove events, and the per-bundle load and error events. -/
inductive Listener where
  | add : Listener
  | remove : Listener
  | load : Nat → Listener
  | error : Nat → Listener
deriving DecidableEq

/-- Subscribe: events.on appends a listener entry. -/
def subOn (subs : List Listener) (s : Listener) : List Listener :=
  subs ++ [s]

/-- Unsubscribe: events.off removes the matching listener entries. -/
def subOff (subs : List Listener) (s : Listener) : List Listener :=
  subs.filter (fun t => t ≠ s)

/-- The observable shape of an asset object, as consumed by the registry:
id, type tag, manifest of member asset ids (bundles), number of font map
pages (fonts), the canonical file URL (none embeds a null/undefined
getFileUrl result), the loaded/loading state booleans, and the resource,
embedded as its getBlobUrl function (none embeds a null resource). -/
structure Asset where
  id : Nat
  type : String
  dataAssets : List Nat := []
  mapsLen : Nat := 0
  fileUrl : Option String := none
  loaded : Bool := false
  loading : Bool := false
  resource : Option (String → String) := none

/-- The external world as read by the registry: the current field values of
every asset object (by id), whether the asset registry currently holds an
asset with a given id (for assets.get), and decodeURIComponent. -/
structure Env where
  objs : Nat → Asset
  registered : Nat → Bool
  decode : String → String

/-- One recorded continuation invocation: the callback token, the error
argument (none embeds null) and the handle argument (none embeds undefined). -/
structure CallEvent where
  cb : Nat
  err : Option String
  handle : Option String
deriving DecidableEq

/-- Internal state of the BundleRegistry: the bundle catalog (ids of bundle
assets, insertion-ordered), the asset-id index and URL index (both mapping
into the arena of shared membership lists), the arena itself with its fresh-id
counter, the pending file request queues, and the current subscriptions. -/
structure RegistryState where
  bundleAssets : List Nat := []
  assetsInBundles : List (Nat × Nat) := []
  urlsInBundles : List (String × Nat) := []
  sets : List (Nat × List Nat) := []
  nextSetId : Nat := 0
  fileRequests : List (String × List Nat) := []
  subs : List Listener := []
deriving DecidableEq

/-- The state the constructor builds: empty indices, subscribed to add and remove. -/
def RegistryState.init : RegistryState :=
  { subs := [Listener.add, Listener.remove] }

/-- The membership list held in the arena under a set identifier. -/
def getSet (st : RegistryState) (sid : Nat) : List Nat :=
  (alistLookup st.sets sid).getD []

/-- Embeds _normalizeUrl: url.split(chr)[0] with chr the query separator,
i.e. the prefix of the url before its first query separator character. -/
def normalizeUrl (url : String) : String :=
  String.mk (url.data.takeWhile (fun c => c != '?'))

/-- Replace the first occurrence of pat in a character list by repl,
returning the list unchanged when pat does not occur (JS String.replace
with a string pattern). -/
def replaceFirstChars (pat repl : List Char) : List Char → List Char
  | [] => if pat.isPrefixOf ([] : List Char) then repl else []
  | c :: cs =>
    if pat.isPrefixOf (c :: cs) then repl ++ List.drop pat.length (c :: cs)
    else c :: replaceFirstChars pat repl cs

/-- Replace the first occurrence of pat in s by repl. -/
def replaceFirst (s pat repl : String) : String :=
  String.mk (replaceFirstChars pat.data repl.data s.data)

/-- Embeds _getAssetFileUrls: none when getFileUrl yields no URL (falsy);
otherwise the normalized URL, followed, for font assets, by one derived URL
per extra map page, obtained by replacing the first occurrence of the png
extension with the page index followed by the png extension. -/
def getAssetFileUrls (a : Asset) : Option (List String) :=
  match a.fileUrl with
  | none => none
  | some u =>
    if u = "" then none
    else
      let url := normalizeUrl u
      let urls :=
        if a.type = "font" then
          url :: ((List.range a.mapsLen).drop 1).map
            (fun i => replaceFirst url ".png" (toString i ++ ".png"))
        else [url]
      some urls

/-- Embeds _indexAssetFileUrls: point every file URL of the asset at the same
membership list as the asset id entry (aliasing by shared set identifier). -/
def indexAssetFileUrls (st : RegistryState) (a : Asset) : RegistryState :=
  match getAssetFileUrls a with
  | none => st
  | some urls =>
    match alistLookup st.assetsInBundles a.id with
    | none => st
    | some sid =>
      { st with urlsInBundles := urls.foldl (fun m u => alistSet m u sid) st.urlsInBundles }

/-- Embeds _indexAssetInBundle: create a fresh one-element membership list for
the asset id if it has none (a fresh arena entry embeds the fresh JS array),
otherwise push the bundle if not already present; then, if the asset registry
holds the asset, index its file URLs. -/
def indexAssetInBundle (env : Env) (st : RegistryState) (assetId : Nat) (bundleId : Nat) :
    RegistryState :=
  let st1 :=
    match alistLookup st.assetsInBundles assetId with
    | none =>
      { st with
        sets := st.sets ++ [(st.nextSetId, [bundleId])],
        assetsInBundles := alistSet st.assetsInBundles assetId st.nextSetId,
        nextSetId := st.nextSetId + 1 }
    | some sid =>
      let arr := getSet st sid
      if bundleId ∈ arr then st
      else { st with sets := alistSet st.sets sid (arr ++ [bundleId]) }
  if env.registered assetId then indexAssetFileUrls st1 (env.objs assetId) else st1

/-- Embeds _onAssetAdded: a bundle asset is cataloged, its load and error
events are subscribed to, and each manifest member is indexed; a non-bundle
asset already covered by some bundle has its file URLs indexed. -/
def onAssetAdded (env : Env) (st : RegistryState) (a : Asset) : RegistryState :=
  if a.type = "bundle" then
    let st1 :=
      { st with
        bundleAssets :=
          if a.id ∈ st.bundleAssets then st.bundleAssets else st.bundleAssets ++ [a.id],
        subs := subOn (subOn st.subs (Listener.load a.id)) (Listener.error a.id) }
    a.dataAssets.foldl (fun acc mid => indexAssetInBundle env acc mid a.id) st1
  else
    if (alistLookup st.assetsInBundles a.id).isSome then indexAssetFileUrls st a
    else st

/-- One iteration of the bundle-removal loop in _onAssetRemoved: splice the
bundle out of this membership list if present; when the list empties, delete
the owning asset-id entry and every URL entry aliasing that exact list
(identity of the shared array embeds as equality of the set identifier). -/
def removeBundleStep (bid : Nat) (st : RegistryState) (entry : Nat × Nat) : RegistryState :=
  let sid := entry.2
  let arr := getSet st sid
  if bid ∈ arr then
    let arr' := arr.erase bid
    let st1 := { st with sets := alistSet st.sets sid arr' }
    if arr' = [] then
      { st1 with
        assetsInBundles := alistDelete st1.assetsInBundles entry.1,
        urlsInBundles := st1.urlsInBundles.filter (fun p => p.2 ≠ sid) }
    else st1
  else st

/-- Embeds _onAssetRemoved. For a bundle: drop it from the catalog,
unsubscribe its load and error listeners, and run the removal loop over the
asset-id index. For a covered non-bundle asset: delete its asset-id entry,
then delete each of its file URLs; when _getAssetFileUrls yields null the
source reads .length of null and faults, embedded as none. The handler never
invokes a continuation, so the recorded invocation list is always empty. -/
def onAssetRemoved (st : RegistryState) (a : Asset) :
    Option (RegistryState × List CallEvent) :=
  if a.type = "bundle" then
    let st1 :=
      { st with
        bundleAssets := st.bundleAssets.filter (fun i => i ≠ a.id),
        subs := subOff (subOff st.subs (Listener.load a.id)) (Listener.error a.id) }
    some (st1.assetsInBundles.foldl (removeBundleStep a.id) st1, [])
  else if (alistLookup st.assetsInBundles a.id).isSome then
    let st1 := { st with assetsInBundles := alistDelete st.assetsInBundles a.id }
    match getAssetFileUrls a with
    | none => none
    | some urls =>
      some ({ st1 with urlsInBundles := urls.foldl (fun m u => alistDelete m u) st1.urlsInBundles }, [])
  else
    some (st, [])

/-- Embeds _findLoadedOrLoadingBundleForUrl: among the bundles covering the
URL, the first one that is loaded with a resource, else the first one that is
loading, else none. -/
def findLoadedOrLoadingBundleForUrl (env : Env) (st : RegistryState) (url : String) :
    Option Nat :=
  match alistLookup st.urlsInBundles url with
  | none => none
  | some sid =>
    let bundles := getSet st sid
    match bundles.find? (fun b => (env.objs b).loaded && (env.objs b).resource.isSome) with
    | some b => some b
    | none => bundles.find? (fun b => (env.objs b).loading)

/-- Embeds hasUrl: some bundle, in any state, claims the URL. -/
def hasUrl (st : RegistryState) (url : String) : Bool :=
  (alistLookup st.urlsInBundles url).isSome

/-- Embeds canLoadUrl: some loaded-or-loading bundle claims the URL. -/
def canLoadUrl (env : Env) (st : RegistryState) (url : String) : Bool :=
  (findLoadedOrLoadingBundleForUrl env st url).isSome

/-- Embeds listBundlesForAsset: a snapshot copy of the membership list. -/
def listBundlesForAsset (st : RegistryState) (a : Asset) : List Nat :=
  match alistLookup st.assetsInBundles a.id with
  | none => []
  | some sid => getSet st sid

/-- One iteration of the _onBundleError loop: when no loaded-or-loading bundle
covers the queued URL any more, invoke each queued continuation with the error
message and delete the queue entry; otherwise leave the entry untouched. -/
def errorStep (env : Env) (m : String) (acc : RegistryState × List CallEvent)
    (p : String × List Nat) : RegistryState × List CallEvent :=
  match findLoadedOrLoadingBundleForUrl env acc.1 p.1 with
  | some _ => acc
  | none =>
    ({ acc.1 with fileRequests := alistDelete acc.1.fileRequests p.1 },
     acc.2 ++ p.2.map (fun cb => { cb := cb, err := some m, handle := none }))

/-- Embeds _onBundleError: re-search every queued URL for a surviving
loaded-or-loading bundle, failing and deleting the queues that have none. -/
def onBundleError (env : Env) (st : RegistryState) (m : String) :
    RegistryState × List CallEvent :=
  st.fileRequests.foldl (errorStep env m) (st, [])

/-- One iteration of the drain loop in _onBundleLoaded: when the queued URL is
covered by the loaded bundle, invoke each queued continuation with the blob
handle for the decoded URL and delete the queue entry. -/
def drainStep (env : Env) (bid : Nat) (res : String → String)
    (acc : RegistryState × List CallEvent) (p : String × List Nat) :
    RegistryState × List CallEvent :=
  match alistLookup acc.1.urlsInBundles p.1 with
  | none => acc
  | some sid =>
    if bid ∈ getSet acc.1 sid then
      ({ acc.1 with fileRequests := alistDelete acc.1.fileRequests p.1 },
       acc.2 ++ p.2.map (fun cb =>
         { cb := cb, err := none, handle := some (res (env.decode p.1)) }))
    else acc

/-- Embeds _onBundleLoaded: with no resource, delegate to the error handler
with the synthetic failure message; otherwise drain every queued URL the
bundle covers. -/
def onBundleLoaded (env : Env) (st : RegistryState) (b : Asset) :
    RegistryState × List CallEvent :=
  match b.resource with
  | none => onBundleError env st ("Bundle " ++ toString b.id ++ " failed to load")
  | some res => st.fileRequests.foldl (drainStep env b.id res) (st, [])

/-- Embeds loadUrl: search for a loaded-or-loading covering bundle; none found
fails the continuation synchronously; a loaded one satisfies it synchronously
with the blob handle for the decoded URL (reading a null resource on a loaded
bundle would fault, embedded as none); a loading one enqueues the continuation
under the verbatim URL. -/
def loadUrl (env : Env) (st : RegistryState) (url : String) (cb : Nat) :
    Option (RegistryState × List CallEvent) :=
  match findLoadedOrLoadingBundleForUrl env st url with
  | none =>
    some (st, [{ cb := cb, err := some ("URL " ++ url ++ " not found in any bundles"),
                 handle := none }])
  | some bid =>
    if (env.objs bid).loaded then
      match (env.objs bid).resource with
      | none => none
      | some res => some (st, [{ cb := cb, err := none, handle := some (res (env.decode url)) }])
    else
      match alistLookup st.fileRequests url with
      | some q =>
        some ({ st with fileRequests := alistSet st.fileRequests url (q ++ [cb]) }, [])
      | none =>
        some ({ st with fileRequests := alistSet st.fileRequests url [cb] }, [])

/-- Embeds destroy: unsubscribe the global add and remove listeners, then the
per-bundle loop, which in the source calls events.on rather than events.off
and therefore subscribes the load and error listeners once more; finally all
indices are released (nulled, embedded as emptied). -/
def destroy (st : RegistryState) : RegistryState :=
  let subs1 := subOff (subOff st.subs Listener.add) Listener.remove
  let subs2 := st.bundleAssets.foldl
    (fun s bid => subOn (subOn s (Listener.load bid)) (Listener.error bid)) subs1
  { bundleAssets := [], assetsInBundles := [], urlsInBundles := [], sets := [],
    nextSetId := 0, fileRequests := [], subs := subs2 }

/-- The membership test performed by the drain loop of _onBundleLoaded: the
URL has a bundle-set entry and that set contains the bundle. -/
def urlCovered (st : RegistryState) (url : String) (bid : Nat) : Bool :=
  match alistLookup st.urlsInBundles url with
  | none => false
  | some sid => decide (bid ∈ getSet st sid)

/-! Concrete fixtures used by the scenario conjuncts, witnesses and
counterexamples below. -/

/-- A resource whose blob handle for a path is the path tagged blob:. -/
def resBlob : String → String := fun p => "blob:" ++ p

/-- A plain non-bundle asset with the given id and no file. -/
def plainAsset (i : Nat) : Asset :=
  { id := i, type := "other" }

/-- World where asset 10 is a loaded bundle holding a resource. -/
def env1 : Env :=
  { objs := fun i =>
      if i = 10 then { id := 10, type := "bundle", loaded := true, resource := some resBlob }
      else plainAsset i,
    registered := fun _ => false,
    decode := fun s => s }

/-- Registry knowing that bundle 10 covers the URL a.png. -/
def st1 : RegistryState :=
  { urlsInBundles := [("a.png", 0)], sets := [(0, [10])] }

/-- World where asset 10 is a bundle currently loading. -/
def envLoading : Env :=
  { objs := fun i =>
      if i = 10 then { id := 10, type := "bundle", loading := true }
      else plainAsset i,
    registered := fun _ => false,
    decode := fun s => s }

/-- Registry where bundle 10 covers a.bin and an unrelated request for z.bin
is already queued. -/
def stQ : RegistryState :=
  { urlsInBundles := [("a.bin", 0)], sets := [(0, [10])], fileRequests := [("z.bin", [3])] }

/-- stQ after loadUrl enqueued callback 1 for a.bin. -/
def stQ1 : RegistryState :=
  { urlsInBundles := [("a.bin", 0)], sets := [(0, [10])],
    fileRequests := [("z.bin", [3]), ("a.bin", [1])] }

/-- stQ1 after loadUrl enqueued callback 2 for a.bin. -/
def stQ2 : RegistryState :=
  { urlsInBundles := [("a.bin", 0)], sets := [(0, [10])],
    fileRequests := [("z.bin", [3]), ("a.bin", [1, 2])] }

/-- The bundle asset 10 once loaded with its resource. -/
def bLoaded : Asset :=
  { id := 10, type := "bundle", loaded := true, resource := some resBlob }

/-- The bundle asset 10 delivering a load notification without a resource. -/
def bNoRes : Asset :=
  { id := 10, type := "bundle", loaded := true, resource := none }

/-- World where asset 11 is a bundle currently loading. -/
def envLoading11 : Env :=
  { objs := fun i =>
      if i = 11 then { id := 11, type := "bundle", loading := true }
      else plainAsset i,
    registered := fun _ => false,
    decode := fun s => s }

/-- World after bundle 11 errored: neither loaded nor loading. -/
def envErrored11 : Env :=
  { objs := fun i => if i = 11 then { id := 11, type := "bundle" } else plainAsset i,
    registered := fun _ => false,
    decode := fun s => s }

/-- Registry where bundle 11 is the only bundle covering only.bin. -/
def stE : RegistryState :=
  { urlsInBundles := [("only.bin", 1)], sets := [(1, [11])] }

/-- stE after loadUrl enqueued callback 1 for only.bin. -/
def stE1 : RegistryState :=
  { urlsInBundles := [("only.bin", 1)], sets := [(1, [11])],
    fileRequests := [("only.bin", [1])] }

/-- World holding the two member assets of the round-trip bundle. -/
def env2 : Env :=
  { objs := fun i =>
      if i = 1 then { id := 1, type := "other", fileUrl := some "u1.png" }
      else if i = 2 then { id := 2, type := "other", fileUrl := some "u2.png" }
      else plainAsset i,
    registered := fun i => i == 1 || i == 2,
    decode := fun s => s }

/-- The round-trip bundle asset covering assets 1 and 2. -/
def bB : Asset :=
  { id := 10, type := "bundle", dataAssets := [1, 2] }

/-- Member asset 1 of the round-trip bundle. -/
def asset1 : Asset :=
  { id := 1, type := "other", fileUrl := some "u1.png" }

/-- Member asset 2 of the round-trip bundle. -/
def asset2 : Asset :=
  { id := 2, type := "other", fileUrl := some "u2.png" }

/-- Registry where bundle 10, held in the catalog, is the only cover of a
queued request for only.bin. -/
def stQ9 : RegistryState :=
  { bundleAssets := [10], urlsInBundles := [("only.bin", 0)], sets := [(0, [10])],
    fileRequests := [("only.bin", [1])],
    subs := [Listener.add, Listener.remove, Listener.load 10, Listener.error 10] }

/-- The bundle asset 10 as a bare descriptor. -/
def b10 : Asset :=
  { id := 10, type := "bundle" }

/-- Registry holding one bundle asset with its listeners, for destroy. -/
def st4 : RegistryState :=
  { bundleAssets := [1],
    subs := [Listener.add, Listener.remove, Listener.load 1, Listener.error 1] }

/-- A font asset whose base URL has no png extension, with two map pages. -/
def fontJpg : Asset :=
  { id := 5, type := "font", fileUrl := some "font.jpg", mapsLen := 2 }

/-- A font asset with base URL font.png and three map pages. -/
def fontPng : Asset :=
  { id := 7, type := "font", fileUrl := some "font.png", mapsLen := 3 }

/-- Registry where font asset 5 is covered by bundle 10. -/
def stF5 : RegistryState :=
  { assetsInBundles := [(5, 0)], sets := [(0, [10])] }

/-- Registry where font asset 7 is covered by bundle 10. -/
def stF7 : RegistryState :=
  { assetsInBundles := [(7, 0)], sets := [(0, [10])] }

/-- The registry state left by registering the round-trip bundle over assets
1 and 2 and then unregistering it: both membership sets emptied in the arena,
all index entries gone. -/
def stRoundTrip : RegistryState :=
  { sets := [(0, []), (1, [])], nextSetId := 2,
    subs := [Listener.add, Listener.remove] }

/-- A non-bundle asset, covered, whose getFileUrl yields nothing. -/
def aNoUrl : Asset :=
  { id := 5, type := "other", fileUrl := none }

/-- Registry where asset 5 is covered by bundle 10. -/
def stA5 : RegistryState :=
  { assetsInBundles := [(5, 0)], sets := [(0, [10])] }

/-! Helper lemmas about association lists and the notification folds. -/

theorem alistLookup_mem {α β : Type} [DecidableEq α] {l : List (α × β)} {a : α} {b : β}
    (h : alistLookup l a = some b) : (a, b) ∈ l := by
  induction l with
  | nil => simp [alistLookup] at h
  | cons p rest ih =>
    obtain ⟨k, v⟩ := p
    rw [alistLookup] at h
    split at h
    · rename_i hk
      injection h with hv
      subst hk; subst hv
      exact List.mem_cons_self _ _
    · exact List.mem_cons_of_mem _ (ih h)

theorem alistLookup_eq_none {α β : Type} [DecidableEq α] {l : List (α × β)} {a : α}
    (h : a ∉ l.map Prod.fst) : alistLookup l a = none := by
  induction l with
  | nil => rfl
  | cons p rest ih =>
    obtain ⟨k, v⟩ := p
    simp only [List.map_cons, List.mem_cons, not_or] at h
    rw [alistLookup, if_neg (Ne.symm h.1)]
    exact ih h.2

theorem alistLookup_alistSet_self {α β : Type} [DecidableEq α]
    (l : List (α × β)) (a : α) (b : β) :
    alistLookup (alistSet l a b) a = some b := by
  induction l with
  | nil => simp [alistSet, alistLookup]
  | cons p rest ih =>
    obtain ⟨k, v⟩ := p
    rw [alistSet]
    by_cases hk : k = a
    · rw [if_pos hk, alistLookup, if_pos hk]
    · rw [if_neg hk, alistLookup, if_neg hk]
      exact ih

theorem alistLookup_alistSet_ne {α β : Type} [DecidableEq α]
    (l : List (α × β)) (a c : α) (b : β) (h : a ≠ c) :
    alistLookup (alistSet l a b) c = alistLookup l c := by
  induction l with
  | nil => simp [alistSet, alistLookup, h]
  | cons p rest ih =>
    obtain ⟨k, v⟩ := p
    rw [alistSet]
    by_cases hk : k = a
    · subst hk
      rw [if_pos rfl, alistLookup, alistLookup, if_neg h]
      rw [if_neg h]
    · rw [if_neg hk, alistLookup, alistLookup]
      by_cases hc : k = c
      · rw [if_pos hc, if_pos hc]
      · rw [if_neg hc, if_neg hc]
        exact ih

theorem alistDelete_sublist {α β : Type} [DecidableEq α] (l : List (α × β)) (a : α) :
    List.Sublist (alistDelete l a) l :=
  List.filter_sublist l

theorem find_congr (env : Env) {s t : RegistryState} (h1 : s.urlsInBundles = t.urlsInBundles)
    (h2 : s.sets = t.sets) (url : String) :
    findLoadedOrLoadingBundleForUrl env s url = findLoadedOrLoadingBundleForUrl env t url := by
  simp only [findLoadedOrLoadingBundleForUrl, getSet, h1, h2]

theorem foldProc_char (t : RegistryState) (K : String → Bool)
    (F : String × List Nat → List CallEvent)
    (step : RegistryState × List CallEvent → String × List Nat → RegistryState × List CallEvent)
    (hstep : ∀ (s : RegistryState) (evs : List CallEvent) (p : String × List Nat),
      s.urlsInBundles = t.urlsInBundles → s.sets = t.sets →
      step (s, evs) p =
        if K p.1 then (s, evs)
        else ({ s with fileRequests := alistDelete s.fileRequests p.1 }, evs ++ F p)) :
    ∀ (l : List (String × List Nat)) (s : RegistryState) (evs : List CallEvent),
      s.urlsInBundles = t.urlsInBundles → s.sets = t.sets →
      l.foldl step (s, evs) =
        ({ s with fileRequests :=
            l.foldl (fun fr p => if K p.1 then fr else alistDelete fr p.1) s.fileRequests },
         evs ++ (l.filter (fun p => !(K p.1))).flatMap F) := by
  intro l
  induction l with
  | nil =>
    intro s evs h1 h2
    simp only [List.foldl_nil, List.filter_nil, List.flatMap_nil, List.append_nil]
  | cons p l ih =>
    intro s evs h1 h2
    rw [List.foldl_cons, hstep s evs p h1 h2]
    by_cases hK : K p.1
    · rw [if_pos hK, ih s evs h1 h2]
      simp [hK]
    · rw [if_neg hK,
        ih { s with fileRequests := alistDelete s.fileRequests p.1 } (evs ++ F p) h1 h2]
      simp [hK, List.append_assoc]

theorem foldl_delete_eq_filter {α β : Type} [DecidableEq α] (K : α → Bool) :
    ∀ (l : List (α × β)) (fr : List (α × β)),
      l.foldl (fun fr p => if K p.1 then fr else alistDelete fr p.1) fr =
        fr.filter (fun q => !(decide (q.1 ∈ (l.filter (fun p => !(K p.1))).map Prod.fst))) := by
  intro l
  induction l with
  | nil =>
    intro fr
    simp
  | cons p l ih =>
    intro fr
    rw [List.foldl_cons]
    by_cases hK : K p.1
    · rw [if_pos hK, ih fr]
      have hfc : List.filter (fun r => !(K r.1)) (p :: l) = List.filter (fun r => !(K r.1)) l := by
        rw [List.filter_cons]
        simp [hK]
      rw [hfc]
    · rw [if_neg hK, ih (alistDelete fr p.1)]
      rw [alistDelete, List.filter_filter]
      apply List.filter_congr
      intro q hq
      have hK' : K p.1 = false := by simpa using hK
      by_cases h1 : q.1 = p.1
      · simp [h1, hK', List.filter_cons]
      · by_cases h2 : q.1 ∈ (l.filter (fun r => !(K r.1))).map Prod.fst
        · simp [h1, h2, hK', List.filter_cons]
        · simp [h1, h2, hK', List.filter_cons]

theorem foldl_delete_self {α β : Type} [DecidableEq α] (K : α → Bool) (l : List (α × β)) :
    l.foldl (fun fr p => if K p.1 then fr else alistDelete fr p.1) l =
      l.filter (fun q => K q.1) := by
  rw [foldl_delete_eq_filter]
  apply List.filter_congr
  intro q hq
  by_cases hK : K q.1
  · simp only [hK, Bool.not_eq_true']
    rw [decide_eq_false_iff_not]
    simp only [List.mem_map, List.mem_filter, not_exists, not_and]
    rintro ⟨x1, x2⟩ ⟨hx, hkx⟩ hfst
    simp only at hfst
    subst hfst
    simp [hK] at hkx
  · simp only [hK, Bool.not_eq_false']
    rw [decide_eq_true_iff]
    exact List.mem_map_of_mem Prod.fst (List.mem_filter.mpr ⟨hq, by simp [hK]⟩)

theorem errorStep_char (env : Env) (m : String) (t : RegistryState) :
    ∀ (s : RegistryState) (evs : List CallEvent) (p : String × List Nat),
      s.urlsInBundles = t.urlsInBundles → s.sets = t.sets →
      errorStep env m (s, evs) p =
        if (findLoadedOrLoadingBundleForUrl env t p.1).isSome then (s, evs)
        else ({ s with fileRequests := alistDelete s.fileRequests p.1 },
          evs ++ p.2.map (fun cb => { cb := cb, err := some m, handle := none })) := by
  intro s evs p h1 h2
  unfold errorStep
  rw [find_congr env h1 h2 p.1]
  cases hf : findLoadedOrLoadingBundleForUrl env t p.1 with
  | none => simp
  | some b => simp

theorem onBundleError_char (env : Env) (st : RegistryState) (m : String) :
    onBundleError env st m =
      ({ st with fileRequests :=
          (st.fileRequests.filter
            (fun p => (findLoadedOrLoadingBundleForUrl env st p.1).isSome)) },
       (st.fileRequests.filter
          (fun p => !((findLoadedOrLoadingBundleForUrl env st p.1).isSome))).flatMap
         (fun p => p.2.map (fun cb => { cb := cb, err := some m, handle := none }))) := by
  unfold onBundleError
  rw [foldProc_char st (fun u => (findLoadedOrLoadingBundleForUrl env st u).isSome)
      (fun p => p.2.map (fun cb => { cb := cb, err := some m, handle := none }))
      (errorStep env m)
      (fun s evs p h1 h2 => errorStep_char env m st s evs p h1 h2)
      st.fileRequests st [] rfl rfl]
  rw [foldl_delete_self (fun u => (findLoadedOrLoadingBundleForUrl env st u).isSome)
      st.fileRequests]
  simp

theorem drainStep_char (env : Env) (bid : Nat) (res : String → String) (t : RegistryState) :
    ∀ (s : RegistryState) (evs : List CallEvent) (p : String × List Nat),
      s.urlsInBundles = t.urlsInBundles → s.sets = t.sets →
      drainStep env bid res (s, evs) p =
        if !(urlCovered t p.1 bid) then (s, evs)
        else ({ s with fileRequests := alistDelete s.fileRequests p.1 },
          evs ++ p.2.map (fun cb =>
            { cb := cb, err := none, handle := some (res (env.decode p.1)) })) := by
  intro s evs p h1 h2
  have hg : ∀ sid : Nat, getSet s sid = getSet t sid := by
    intro sid
    unfold getSet
    rw [h2]
  unfold drainStep urlCovered
  rw [h1]
  cases hf : alistLookup t.urlsInBundles p.1 with
  | none => simp
  | some sid =>
    by_cases hm : bid ∈ getSet t sid
    · simp [hg sid, hm, h1]
    · simp [hg sid, hm, h1]

theorem onBundleLoaded_eq_fold (env : Env) (st : RegistryState) (b : Asset)
    (res : String → String) (h : b.resource = some res) :
    onBundleLoaded env st b =
      st.fileRequests.foldl (drainStep env b.id res) (st, []) := by
  unfold onBundleLoaded
  rw [h]

theorem onBundleLoaded_char (env : Env) (st : RegistryState) (b : Asset)
    (res : String → String) (h : b.resource = some res) :
    onBundleLoaded env st b =
      ({ st with fileRequests :=
          (st.fileRequests.filter (fun p => !(urlCovered st p.1 b.id))) },
       (st.fileRequests.filter (fun p => urlCovered st p.1 b.id)).flatMap
         (fun p => p.2.map (fun cb =>
           { cb := cb, err := none, handle := some (res (env.decode p.1)) }))) := by
  rw [onBundleLoaded_eq_fold env st b res h]
  rw [foldProc_char st (fun u => !(urlCovered st u b.id))
      (fun p => p.2.map (fun cb =>
        { cb := cb, err := none, handle := some (res (env.decode p.1)) }))
      (drainStep env b.id res)
      (fun s evs p h1 h2 => drainStep_char env b.id res st s evs p h1 h2)
      st.fileRequests st [] rfl rfl]
  rw [foldl_delete_self (fun u => !(urlCovered st u b.id)) st.fileRequests]
  simp

/-- C3: when a bundle error notification with message m is handled, the
pending queue keeps exactly the entries whose URL still has a
loaded-or-loading covering bundle (those continuations are not invoked),
while every queued continuation for a URL with no surviving candidate is
invoked exactly once with error m and no success value, its queue entry being
deleted; in particular, when the only bundle covering only.bin is loading at
loadUrl time and then errors, the queued continuation fires exactly once with
a non-null error. -/
theorem onBundleError_spec (env : Env) (st : RegistryState) (m : String) :
    ((onBundleError env st m).1.fileRequests =
        st.fileRequests.filter
          (fun p => (findLoadedOrLoadingBundleForUrl env st p.1).isSome))
    ∧ ((onBundleError env st m).2 =
        (st.fileRequests.filter
          (fun p => !((findLoadedOrLoadingBundleForUrl env st p.1).isSome))).flatMap
          (fun p => p.2.map (fun cb => { cb := cb, err := some m, handle := none })))
    ∧ loadUrl envLoading11 stE "only.bin" 1 = some (stE1, [])
    ∧ onBundleError envErrored11 stE1 "boom" =
        ({ stE1 with fileRequests := [] },
         [{ cb := 1, err := some "boom", handle := none }]) := by
  refine ⟨?_, ?_, by decide, by decide⟩
  · rw [onBundleError_char]
  · rw [onBundleError_char]

/-- C6: continuations queued for one URL are drained in FIFO registration
order when a covering bundle with a resource loads: the handler deletes
exactly the queue entries whose URL the bundle covers, and the recorded
invocations are, URL by URL in queue order, the queued continuations each
invoked once with a null error and the same resolved handle for that URL;
queue entries for URLs the bundle does not cover are untouched. The scenario
conjuncts replay loadUrl(a.bin, cb1) then loadUrl(a.bin, cb2) against a
loading bundle and its subsequent load notification: cb1 fires before cb2,
each exactly once, with the same handle, and the unrelated z.bin entry
survives. -/
theorem onBundleLoaded_spec (env : Env) (st : RegistryState) (b : Asset)
    (res : String → String) (h : b.resource = some res) :
    ((onBundleLoaded env st b).1.fileRequests =
        st.fileRequests.filter (fun p => !(urlCovered st p.1 b.id)))
    ∧ ((onBundleLoaded env st b).2 =
        (st.fileRequests.filter (fun p => urlCovered st p.1 b.id)).flatMap
          (fun p => p.2.map (fun cb =>
            { cb := cb, err := none, handle := some (res (env.decode p.1)) })))
    ∧ loadUrl envLoading stQ "a.bin" 1 = some (stQ1, [])
    ∧ loadUrl envLoading stQ1 "a.bin" 2 = some (stQ2, [])
    ∧ onBundleLoaded envLoading stQ2 bLoaded =
        ({ stQ2 with fileRequests := [("z.bin", [3])] },
         [{ cb := 1, err := none, handle := some "blob:a.bin" },
          { cb := 2, err := none, handle := some "blob:a.bin" }]) := by
  refine ⟨?_, ?_, by decide, by decide, by decide⟩
  · rw [onBundleLoaded_char env st b res h]
  · rw [onBundleLoaded_char env st b res h]

/-- Witness for C6 at a concrete input: the load notification for bundle 10
with its resource drains the two queued continuations for a.bin. -/
theorem onBundleLoaded_spec_witness :
    (onBundleLoaded envLoading stQ2 bLoaded).2 =
      (stQ2.fileRequests.filter (fun p => urlCovered stQ2 p.1 bLoaded.id)).flatMap
        (fun p => p.2.map (fun cb =>
          { cb := cb, err := none, handle := some (resBlob (envLoading.decode p.1)) })) :=
  (onBundleLoaded_spec envLoading stQ2 bLoaded resBlob rfl).2.1

/-- C7: a load notification for a bundle whose resource handle is absent is
handled exactly as the error handler invoked with the synthetic message
Bundle id failed to load, and no pending continuation receives a success
value from that notification. -/
theorem onBundleLoaded_noResource_spec (env : Env) (st : RegistryState) (b : Asset)
    (h : b.resource = none) :
    onBundleLoaded env st b =
      onBundleError env st ("Bundle " ++ toString b.id ++ " failed to load")
    ∧ ∀ ev ∈ (onBundleLoaded env st b).2, ev.handle = none := by
  have h1 : onBundleLoaded env st b =
      onBundleError env st ("Bundle " ++ toString b.id ++ " failed to load") := by
    unfold onBundleLoaded
    rw [h]
  refine ⟨h1, ?_⟩
  rw [h1, onBundleError_char]
  intro ev hev
  simp only [List.mem_flatMap, List.mem_map] at hev
  obtain ⟨p, hp, cb, hcb, rfl⟩ := hev
  rfl

/-- Witness for C7 at a concrete input: a resource-less load notification for
bundle 10 behaves as its synthetic error notification. -/
theorem onBundleLoaded_noResource_spec_witness :
    onBundleLoaded envLoading stQ2 bNoRes =
      onBundleError envLoading stQ2 ("Bundle " ++ toString bNoRes.id ++ " failed to load")
    ∧ ∀ ev ∈ (onBundleLoaded envLoading stQ2 bNoRes).2, ev.handle = none :=
  onBundleLoaded_noResource_spec envLoading stQ2 bNoRes rfl

/-- C1: loadUrl searches the bundles covering the URL, preferring the first
bundle in membership-set order that is loaded with a valid resource over the
first one that is loading; with no candidate the continuation is invoked
synchronously exactly once with the not-found error message; with a loaded
candidate it is invoked synchronously exactly once with a null error and the
resource handle for the decoded URL; with only a loading candidate it is
appended to the pending queue for the URL and not invoked during the call. -/
theorem loadUrl_spec (env : Env) (st : RegistryState) (url : String) (cb : Nat)
    (hwf : ∀ b : Nat, (env.objs b).loading = true → (env.objs b).loaded = false) :
    (findLoadedOrLoadingBundleForUrl env st url = none →
      loadUrl env st url cb =
        some (st, [{ cb := cb,
                     err := some ("URL " ++ url ++ " not found in any bundles"),
                     handle := none }]))
    ∧ (∀ bid res, findLoadedOrLoadingBundleForUrl env st url = some bid →
        (env.objs bid).loaded = true → (env.objs bid).resource = some res →
        loadUrl env st url cb =
          some (st, [{ cb := cb, err := none, handle := some (res (env.decode url)) }]))
    ∧ (∀ bid, findLoadedOrLoadingBundleForUrl env st url = some bid →
        (env.objs bid).loading = true →
        ∃ st', loadUrl env st url cb = some (st', [])
          ∧ alistLookup st'.fileRequests url =
              some ((alistLookup st.fileRequests url).getD [] ++ [cb]))
    ∧ (∀ sid, alistLookup st.urlsInBundles url = some sid →
        ((getSet st sid).find?
            (fun x => (env.objs x).loaded && (env.objs x).resource.isSome) = none →
          findLoadedOrLoadingBundleForUrl env st url =
            (getSet st sid).find? (fun x => (env.objs x).loading))
        ∧ (∀ b, (getSet st sid).find?
            (fun x => (env.objs x).loaded && (env.objs x).resource.isSome) = some b →
          findLoadedOrLoadingBundleForUrl env st url = some b)) := by
  refine ⟨?_, ?_, ?_, ?_⟩
  · intro hf
    simp [loadUrl, hf]
  · intro bid res hf hl hr
    simp [loadUrl, hf, hl, hr]
  · intro bid hf hload
    have hl : (env.objs bid).loaded = false := hwf bid hload
    cases hq : alistLookup st.fileRequests url with
    | none =>
      refine ⟨{ st with fileRequests := alistSet st.fileRequests url [cb] }, ?_, ?_⟩
      · simp [loadUrl, hf, hl, hq]
      · rw [alistLookup_alistSet_self]
        simp [hq]
    | some q =>
      refine ⟨{ st with fileRequests := alistSet st.fileRequests url (q ++ [cb]) }, ?_, ?_⟩
      · simp [loadUrl, hf, hl, hq]
      · rw [alistLookup_alistSet_self]
        simp [hq]
  · intro sid hsid
    constructor
    · intro h
      simp [findLoadedOrLoadingBundleForUrl, hsid, h]
    · intro b h
      simp [findLoadedOrLoadingBundleForUrl, hsid, h]

/-- Witness for C1 at a concrete input: with bundle 10 loaded and covering
a.png, loadUrl succeeds synchronously with the blob handle. -/
theorem loadUrl_spec_witness :
    loadUrl env1 st1 "a.png" 7 =
      some (st1, [{ cb := 7, err := none, handle := some "blob:a.png" }]) := by
  have hwf : ∀ b : Nat, (env1.objs b).loading = true → (env1.objs b).loaded = false := by
    intro b h
    by_cases hb : b = 10 <;> simp [env1, plainAsset, hb] at h
  exact (loadUrl_spec env1 st1 "a.png" 7 hwf).2.1 10 resBlob (by decide) (by decide) rfl

/-- C5 counterexample: loadUrl does not strip the query string, so on a
registry that covers a.png under a loaded bundle, loadUrl on the raw URL
a.png with a query fails with not-found while loadUrl on the stripped URL
succeeds; the two calls are not identical. -/
theorem loadUrl_query_counterexample :
    normalizeUrl "a.png?x=1" = "a.png"
    ∧ loadUrl env1 st1 "a.png?x=1" 7 =
        some (st1, [{ cb := 7,
                      err := some ("URL " ++ "a.png?x=1" ++ " not found in any bundles"),
                      handle := none }])
    ∧ loadUrl env1 st1 (normalizeUrl "a.png?x=1") 7 =
        some (st1, [{ cb := 7, err := none, handle := some "blob:a.png" }])
    ∧ loadUrl env1 st1 "a.png?x=1" 7 ≠ loadUrl env1 st1 (normalizeUrl "a.png?x=1") 7 := by
  decide

/-- C5 amended: loadUrl performs no normalization of its URL argument; the
covering-bundle search, the queue key and the error message all use the URL
verbatim, so the call coincides with the call on the normalized URL exactly
when the URL contains no query separator (callers are documented to pass
pre-normalized URLs). -/
theorem loadUrl_noQuery_spec (env : Env) (st : RegistryState) (url : String) (cb : Nat)
    (hq : ∀ c ∈ url.data, c ≠ '?') :
    normalizeUrl url = url
    ∧ loadUrl env st url cb = loadUrl env st (normalizeUrl url) cb := by
  have hall : ∀ x ∈ url.data, (x != '?') = true := by
    intro c hc
    simpa using hq c hc
  have hn : normalizeUrl url = url := by
    unfold normalizeUrl
    rw [List.takeWhile_eq_self_iff.mpr hall]
  exact ⟨hn, by rw [hn]⟩

/-- Witness for C5 amended at a concrete input: a.png has no query string, so
normalization is the identity on it and the two calls coincide. -/
theorem loadUrl_noQuery_spec_witness :
    normalizeUrl "a.png" = "a.png"
    ∧ loadUrl env1 st1 "a.png" 7 = loadUrl env1 st1 (normalizeUrl "a.png") 7 :=
  loadUrl_noQuery_spec env1 st1 "a.png" 7 (by decide)

/-- C4 evidence: destroy removes the global add and remove subscriptions and
releases the indices, but the per-bundle loop calls events.on instead of
events.off, so after destroy the registry is still subscribed to the load and
error notifications of bundle 1 (now twice), contradicting the documented
teardown behavior. -/
theorem destroy_bug_evidence :
    (destroy st4).subs =
        [Listener.load 1, Listener.error 1, Listener.load 1, Listener.error 1]
    ∧ Listener.add ∉ (destroy st4).subs
    ∧ Listener.remove ∉ (destroy st4).subs
    ∧ Listener.load 1 ∈ (destroy st4).subs
    ∧ Listener.error 1 ∈ (destroy st4).subs
    ∧ (destroy st4).assetsInBundles = []
    ∧ (destroy st4).urlsInBundles = []
    ∧ (destroy st4).fileRequests = [] := by
  decide

/-- C10: removing a covered non-bundle asset whose getFileUrl yields no URL
faults: _getAssetFileUrls returns null and _onAssetRemoved reads .length of
that null, so the handler does not complete normally (embedded as none). -/
theorem onAssetRemoved_fault_spec (st : RegistryState) (a : Asset)
    (ht : a.type ≠ "bundle") (hin : (alistLookup st.assetsInBundles a.id).isSome = true)
    (hu : a.fileUrl = none) :
    getAssetFileUrls a = none ∧ onAssetRemoved st a = none := by
  have hg : getAssetFileUrls a = none := by
    unfold getAssetFileUrls
    rw [hu]
  refine ⟨hg, ?_⟩
  simp [onAssetRemoved, ht, hin, hg]

/-- Witness for C10 at a concrete input: asset 5, covered by bundle 10 but
with no file URL, makes the removal handler fault. -/
theorem onAssetRemoved_fault_spec_witness :
    getAssetFileUrls aNoUrl = none ∧ onAssetRemoved stA5 aNoUrl = none :=
  onAssetRemoved_fault_spec stA5 aNoUrl (by decide) (by decide) rfl

theorem alistLookup_foldl_set_pres {α β : Type} [DecidableEq α] (b : β) :
    ∀ (urls : List α) (m : List (α × β)) (u : α),
      alistLookup m u = some b →
      alistLookup (urls.foldl (fun acc x => alistSet acc x b) m) u = some b := by
  intro urls
  induction urls with
  | nil => intro m u h; exact h
  | cons x xs ih =>
    intro m u h
    rw [List.foldl_cons]
    apply ih
    by_cases hx : x = u
    · subst hx
      rw [alistLookup_alistSet_self]
    · rw [alistLookup_alistSet_ne _ _ _ _ hx]
      exact h

theorem alistLookup_foldl_set_mem {α β : Type} [DecidableEq α] (b : β) :
    ∀ (urls : List α) (m : List (α × β)) (u : α), u ∈ urls →
      alistLookup (urls.foldl (fun acc x => alistSet acc x b) m) u = some b := by
  intro urls
  induction urls with
  | nil =>
    intro m u h
    simp at h
  | cons x xs ih =>
    intro m u h
    rw [List.foldl_cons]
    rcases List.mem_cons.mp h with h1 | h2
    · subst h1
      exact alistLookup_foldl_set_pres b xs _ u (alistLookup_alistSet_self m u b)
    · exact ih _ u h2

/-- C8 counterexample: a font asset whose base URL has no png extension (here
font.jpg, two map pages) derives page URLs equal to the base URL, so indexing
installs a single URL entry, not one per page. -/
theorem fontUrls_counterexample :
    fontJpg.mapsLen = 2
    ∧ getAssetFileUrls fontJpg = some ["font.jpg", "font.jpg"]
    ∧ (indexAssetFileUrls stF5 fontJpg).urlsInBundles = [("font.jpg", 0)]
    ∧ (indexAssetFileUrls stF5 fontJpg).urlsInBundles.length ≠ fontJpg.mapsLen := by
  decide

/-- C8 corrected: a font asset with N map pages derives its URL list as the
normalized base URL followed, for each page index 1..N-1, by the base URL
with its first png-extension occurrence replaced by the index and the
extension; indexing installs every one of these URLs aliasing the same
membership set as the asset id. When the derived URLs are distinct, as for
base font.png with three pages, this yields exactly N URL entries. -/
theorem fontUrls_spec (st : RegistryState) (a : Asset) (u : String) (sid : Nat)
    (ht : a.type = "font") (hu : a.fileUrl = some u) (hne : u ≠ "")
    (hsid : alistLookup st.assetsInBundles a.id = some sid) :
    getAssetFileUrls a =
      some (normalizeUrl u :: ((List.range a.mapsLen).drop 1).map
        (fun i => replaceFirst (normalizeUrl u) ".png" (toString i ++ ".png")))
    ∧ (∀ url ∈ (getAssetFileUrls a).getD [],
        alistLookup (indexAssetFileUrls st a).urlsInBundles url = some sid)
    ∧ alistLookup (indexAssetFileUrls stF7 fontPng).urlsInBundles "font.png" = some 0
    ∧ alistLookup (indexAssetFileUrls stF7 fontPng).urlsInBundles "font1.png" = some 0
    ∧ alistLookup (indexAssetFileUrls stF7 fontPng).urlsInBundles "font2.png" = some 0
    ∧ (indexAssetFileUrls stF7 fontPng).urlsInBundles.length = fontPng.mapsLen
    ∧ alistLookup stF7.assetsInBundles fontPng.id = some 0 := by
  have hg : getAssetFileUrls a =
      some (normalizeUrl u :: ((List.range a.mapsLen).drop 1).map
        (fun i => replaceFirst (normalizeUrl u) ".png" (toString i ++ ".png"))) := by
    unfold getAssetFileUrls
    rw [hu]
    simp [ht, hne]
  refine ⟨hg, ?_, by decide, by decide, by decide, by decide, by decide⟩
  intro url hurl
  rw [hg] at hurl
  simp only [Option.getD_some] at hurl
  simp only [indexAssetFileUrls, hg, hsid]
  exact alistLookup_foldl_set_mem sid _ _ url hurl

/-- Witness for C8 corrected at a concrete input: the derived first-page URL
font1.png of the three-page font aliases the same set as the asset id. -/
theorem fontUrls_spec_witness :
    alistLookup (indexAssetFileUrls stF7 fontPng).urlsInBundles "font1.png" = some 0 := by
  exact (fontUrls_spec stF7 fontPng "font.png" 0 rfl rfl (by decide) (by decide)).2.1
    "font1.png" (by decide)

theorem removeBundleStep_fileRequests (bid : Nat) (s : RegistryState) (p : Nat × Nat) :
    (removeBundleStep bid s p).fileRequests = s.fileRequests := by
  unfold removeBundleStep
  dsimp only
  split_ifs <;> rfl

theorem foldl_removeBundleStep_fileRequests (bid : Nat) :
    ∀ (l : List (Nat × Nat)) (s : RegistryState),
      (l.foldl (removeBundleStep bid) s).fileRequests = s.fileRequests := by
  intro l
  induction l with
  | nil => intro s; rfl
  | cons p l ih =>
    intro s
    rw [List.foldl_cons, ih, removeBundleStep_fileRequests]

theorem removeBundleStep_getSet_ne (bid : Nat) (s : RegistryState) (p : Nat × Nat)
    (sid : Nat) (h : p.2 ≠ sid) :
    getSet (removeBundleStep bid s p) sid = getSet s sid := by
  unfold removeBundleStep getSet
  dsimp only
  split_ifs
  · rw [alistLookup_alistSet_ne _ _ _ _ h]
  · rw [alistLookup_alistSet_ne _ _ _ _ h]
  · rfl

theorem foldl_removeBundleStep_getSet (bid sid : Nat) :
    ∀ (l : List (Nat × Nat)) (s : RegistryState), sid ∉ l.map Prod.snd →
      getSet (l.foldl (removeBundleStep bid) s) sid = getSet s sid := by
  intro l
  induction l with
  | nil => intro s _; rfl
  | cons p l ih =>
    intro s h
    simp only [List.map_cons, List.mem_cons, not_or] at h
    rw [List.foldl_cons, ih _ h.2, removeBundleStep_getSet_ne bid s p sid (Ne.symm h.1)]

theorem removeBundleStep_getSet_self (bid : Nat) (s : RegistryState) (aid sid : Nat) :
    getSet (removeBundleStep bid s (aid, sid)) sid =
      if bid ∈ getSet s sid then (getSet s sid).erase bid else getSet s sid := by
  unfold removeBundleStep getSet
  dsimp only
  split_ifs
  · rw [alistLookup_alistSet_self]
    rfl
  · rw [alistLookup_alistSet_self]
    rfl
  · rfl

theorem removeBundleStep_assets_sublist (bid : Nat) (s : RegistryState) (p : Nat × Nat) :
    List.Sublist (removeBundleStep bid s p).assetsInBundles s.assetsInBundles := by
  unfold removeBundleStep
  dsimp only
  split_ifs
  · exact List.filter_sublist _
  · exact List.Sublist.refl _
  · exact List.Sublist.refl _

theorem removeBundleStep_urls_sublist (bid : Nat) (s : RegistryState) (p : Nat × Nat) :
    List.Sublist (removeBundleStep bid s p).urlsInBundles s.urlsInBundles := by
  unfold removeBundleStep
  dsimp only
  split_ifs
  · exact List.filter_sublist _
  · exact List.Sublist.refl _
  · exact List.Sublist.refl _

theorem foldl_removeBundleStep_assets_sublist (bid : Nat) :
    ∀ (l : List (Nat × Nat)) (s : RegistryState),
      List.Sublist (l.foldl (removeBundleStep bid) s).assetsInBundles s.assetsInBundles := by
  intro l
  induction l with
  | nil => intro s; exact List.Sublist.refl _
  | cons p l ih =>
    intro s
    rw [List.foldl_cons]
    exact List.Sublist.trans (ih (removeBundleStep bid s p))
      (removeBundleStep_assets_sublist bid s p)

theorem foldl_removeBundleStep_urls_sublist (bid : Nat) :
    ∀ (l : List (Nat × Nat)) (s : RegistryState),
      List.Sublist (l.foldl (removeBundleStep bid) s).urlsInBundles s.urlsInBundles := by
  intro l
  induction l with
  | nil => intro s; exact List.Sublist.refl _
  | cons p l ih =>
    intro s
    rw [List.foldl_cons]
    exact List.Sublist.trans (ih (removeBundleStep bid s p))
      (removeBundleStep_urls_sublist bid s p)

theorem removeBundle_fold_absent (bid : Nat) (s : RegistryState)
    (hsids : (s.assetsInBundles.map Prod.snd).Nodup)
    (hnd : ∀ sid ∈ s.assetsInBundles.map Prod.snd, (getSet s sid).Nodup) :
    ∀ aid sid,
      alistLookup (s.assetsInBundles.foldl (removeBundleStep bid) s).assetsInBundles aid
        = some sid →
      bid ∉ getSet (s.assetsInBundles.foldl (removeBundleStep bid) s) sid := by
  intro aid sid h
  have h1 : (aid, sid) ∈ (s.assetsInBundles.foldl (removeBundleStep bid) s).assetsInBundles :=
    alistLookup_mem h
  have h2 : (aid, sid) ∈ s.assetsInBundles :=
    (foldl_removeBundleStep_assets_sublist bid s.assetsInBundles s).subset h1
  obtain ⟨l1, l2, hsplit⟩ := List.append_of_mem h2
  have hmap : (l1.map Prod.snd ++ sid :: l2.map Prod.snd).Nodup := by
    rw [hsplit] at hsids
    simpa using hsids
  obtain ⟨hm1, hm2, hdisj⟩ := List.nodup_append.mp hmap
  have hs1 : sid ∉ l1.map Prod.snd := fun hx => hdisj hx (List.mem_cons_self _ _)
  have hs2 : sid ∉ l2.map Prod.snd := (List.nodup_cons.mp hm2).1
  rw [hsplit, List.foldl_append, List.foldl_cons]
  rw [foldl_removeBundleStep_getSet bid sid l2 _ hs2]
  rw [removeBundleStep_getSet_self]
  rw [foldl_removeBundleStep_getSet bid sid l1 s hs1]
  by_cases hb : bid ∈ getSet s sid
  · rw [if_pos hb]
    exact (hnd sid (by rw [hsplit]; simp)).not_mem_erase
  · rw [if_neg hb]
    exact hb

theorem removeBundle_fold_cascade (bid : Nat) (s : RegistryState)
    (hsids : (s.assetsInBundles.map Prod.snd).Nodup) :
    ∀ aid sid, alistLookup s.assetsInBundles aid = some sid →
      getSet s sid = [bid] →
      alistLookup (s.assetsInBundles.foldl (removeBundleStep bid) s).assetsInBundles aid
        = none
      ∧ ∀ url,
          alistLookup (s.assetsInBundles.foldl (removeBundleStep bid) s).urlsInBundles url
            ≠ some sid := by
  intro aid sid h hset
  have h2 : (aid, sid) ∈ s.assetsInBundles := alistLookup_mem h
  obtain ⟨l1, l2, hsplit⟩ := List.append_of_mem h2
  have hmap : (l1.map Prod.snd ++ sid :: l2.map Prod.snd).Nodup := by
    rw [hsplit] at hsids
    simpa using hsids
  obtain ⟨hm1, hm2, hdisj⟩ := List.nodup_append.mp hmap
  have hs1 : sid ∉ l1.map Prod.snd := fun hx => hdisj hx (List.mem_cons_self _ _)
  have hset1 : getSet (l1.foldl (removeBundleStep bid) s) sid = [bid] := by
    rw [foldl_removeBundleStep_getSet bid sid l1 s hs1]
    exact hset
  have hstep : removeBundleStep bid (l1.foldl (removeBundleStep bid) s) (aid, sid) =
      { l1.foldl (removeBundleStep bid) s with
        sets := alistSet (l1.foldl (removeBundleStep bid) s).sets sid ([] : List Nat),
        assetsInBundles :=
          alistDelete (l1.foldl (removeBundleStep bid) s).assetsInBundles aid,
        urlsInBundles :=
          (l1.foldl (removeBundleStep bid) s).urlsInBundles.filter
            (fun p => p.2 ≠ sid) } := by
    rw [removeBundleStep]
    dsimp only
    rw [hset1]
    simp [List.erase_cons_head]
  constructor
  · rw [hsplit, List.foldl_append, List.foldl_cons, hstep]
    apply alistLookup_eq_none
    intro hx
    rcases List.mem_map.mp hx with ⟨q, hq, hqfst⟩
    have hq2 : q ∈ (alistDelete (l1.foldl (removeBundleStep bid) s).assetsInBundles aid) :=
      (foldl_removeBundleStep_assets_sublist bid l2 _).subset hq
    rcases List.mem_filter.mp hq2 with ⟨hq3, hq4⟩
    simp only [decide_eq_true_eq] at hq4
    exact hq4 hqfst
  · intro url hlook
    have hq : (url, sid) ∈
        (s.assetsInBundles.foldl (removeBundleStep bid) s).urlsInBundles :=
      alistLookup_mem hlook
    rw [hsplit, List.foldl_append, List.foldl_cons, hstep] at hq
    have hq2 : (url, sid) ∈
        ((l1.foldl (removeBundleStep bid) s).urlsInBundles.filter (fun p => p.2 ≠ sid)) :=
      (foldl_removeBundleStep_urls_sublist bid l2 _).subset hq
    rcases List.mem_filter.mp hq2 with ⟨hq3, hq4⟩
    simp at hq4

/-- C9: handling a bundle remove notification leaves the pending request
queue unchanged and invokes no continuation; even when the removed bundle was
the only bundle covering a queued URL, the request stays pending. -/
theorem onAssetRemoved_bundle_queue (st : RegistryState) (b : Asset)
    (htype : b.type = "bundle") :
    ∃ st', onAssetRemoved st b = some (st', [])
      ∧ st'.fileRequests = st.fileRequests := by
  unfold onAssetRemoved
  rw [if_pos htype]
  refine ⟨_, rfl, ?_⟩
  rw [foldl_removeBundleStep_fileRequests]

/-- Witness for C9 at a concrete input: removing bundle 10, the only cover of
the queued URL only.bin, leaves that pending request queued. -/
theorem onAssetRemoved_bundle_queue_witness :
    ∃ st', onAssetRemoved stQ9 b10 = some (st', [])
      ∧ st'.fileRequests = stQ9.fileRequests :=
  onAssetRemoved_bundle_queue stQ9 b10 rfl

/-- C2: after the remove notification for a bundle is handled, the bundle is
absent from every membership set still indexed by an asset id; every
membership set that held exactly that bundle has its asset-id entry deleted
together with every URL entry aliasing that exact set instance; and the
concrete round-trip of registering a bundle covering assets 1 and 2 and then
unregistering it leaves both assets with no bundles and both URLs unknown to
hasUrl. -/
theorem onAssetRemoved_bundle_spec (st : RegistryState) (b : Asset)
    (htype : b.type = "bundle")
    (hsids : (st.assetsInBundles.map Prod.snd).Nodup)
    (hnd : ∀ sid ∈ st.assetsInBundles.map Prod.snd, (getSet st sid).Nodup) :
    (∃ st', onAssetRemoved st b = some (st', [])
      ∧ (∀ aid sid, alistLookup st'.assetsInBundles aid = some sid →
          b.id ∉ getSet st' sid)
      ∧ (∀ aid sid, alistLookup st.assetsInBundles aid = some sid →
          getSet st sid = [b.id] →
          alistLookup st'.assetsInBundles aid = none
          ∧ ∀ url, alistLookup st'.urlsInBundles url ≠ some sid))
    ∧ onAssetRemoved (onAssetAdded env2 RegistryState.init bB) bB =
        some (stRoundTrip, [])
    ∧ listBundlesForAsset stRoundTrip asset1 = []
    ∧ listBundlesForAsset stRoundTrip asset2 = []
    ∧ hasUrl stRoundTrip "u1.png" = false
    ∧ hasUrl stRoundTrip "u2.png" = false := by
  refine ⟨?_, by decide, by decide, by decide, by decide, by decide⟩
  unfold onAssetRemoved
  rw [if_pos htype]
  refine ⟨_, rfl, ?_, ?_⟩
  · exact removeBundle_fold_absent b.id
      { st with bundleAssets := st.bundleAssets.filter (fun i => i ≠ b.id),
                subs := subOff (subOff st.subs (Listener.load b.id)) (Listener.error b.id) }
      hsids hnd
  · exact removeBundle_fold_cascade b.id
      { st with bundleAssets := st.bundleAssets.filter (fun i => i ≠ b.id),
                subs := subOff (subOff st.subs (Listener.load b.id)) (Listener.error b.id) }
      hsids

/-- Witness for C2 at a concrete input: unregistering the round-trip bundle
from the state produced by registering it satisfies the cleanup properties. -/
theorem onAssetRemoved_bundle_spec_witness :
    ∃ st', onAssetRemoved (onAssetAdded env2 RegistryState.init bB) bB = some (st', [])
      ∧ (∀ aid sid, alistLookup st'.assetsInBundles aid = some sid →
          bB.id ∉ getSet st' sid)
      ∧ (∀ aid sid,
          alistLookup (onAssetAdded env2 RegistryState.init bB).assetsInBundles aid
            = some sid →
          getSet (onAssetAdded env2 RegistryState.init bB) sid = [bB.id] →
          alistLookup st'.assetsInBundles aid = none
          ∧ ∀ url, alistLookup st'.urlsInBundles url ≠ some sid) :=
  (onAssetRemoved_bundle_spec (onAssetAdded env2 RegistryState.init bB) bB rfl
    (by decide) (by decide)).1

end BundleReg
